import Mathlib

/-!
Shallow embedding of the item catalog service of
`src/api/routes/item_routes.js` (the controller part: `create`, `index`,
`remove`, `getById`, `update`, `remove_item_photo`, `edit_item_photo`).

Modelling choices, all taken from the source:
* The persistence layer and the Cloudinary blob store become one explicit
  state `St`: the list of persisted items (in insertion order, the
  persistence layer's natural ascending-id order), the set of blob URLs,
  a counter generating fresh blob URLs, a counter generating fresh item
  ids, and a chronological event log recording uploads, blob deletions,
  item saves and record deletions.
* `await`-ed calls that can throw become the result type `Res`, which
  carries the state reached at the moment of the throw (JavaScript does
  not roll anything back).
* JavaScript truthiness on the field types that actually occur (strings
  and numbers) is modelled explicitly: an absent argument is `none`, the
  empty string and the number 0 are the falsy present values.
* File buffers are abstracted to `Nat` tokens; whether an upload succeeds
  is a parameter `upOk` of the operations that upload.
-/

structure Item where
  id : Nat
  name : String
  ar_name : String
  description : String
  price : Int
  discount : Int
  sub_category_id : String
  main_category_id : String
  images : List String
deriving DecidableEq

inductive Event where
  | uploaded (url : String)
  | blobDeleted (url : String)
  | itemSaved (id : Nat)
  | recordDeleted (id : Nat)
deriving DecidableEq

structure St where
  items : List Item
  blobs : List String
  fresh : Nat
  nextId : Nat
  log : List Event
deriving DecidableEq

inductive Res (α : Type) where
  | ok (val : α) (st : St)
  | err (msg : String) (st : St)
deriving DecidableEq

/-- State reached by an operation, whether it returned or threw. -/
def Res.state {α : Type} : Res α → St
  | .ok _ st => st
  | .err _ st => st

/-- Whether the operation threw (rejected) rather than returned. -/
def Res.isErr {α : Type} : Res α → Bool
  | .ok _ _ => false
  | .err _ _ => true

/-- Fresh blob URL produced by the blob store for upload number `n`. -/
def mkUrl (n : Nat) : String := "https://res.cloudinary.com/blob/" ++ toString n

/-- Embedding of `ItemModel.findById(id)` (also the lookup half of
`findByIdAndDelete`): first item whose id matches, if any. -/
def findById (st : St) (id : Nat) : Option Item :=
  st.items.find? (fun it => it.id == id)

/-- Embedding of `item.save()` on an already-persisted document: the stored
record with the same id is replaced in place. -/
def saveItem (st : St) (item : Item) : St :=
  { st with
      items := st.items.map (fun it => if it.id == item.id then item else it)
      log := st.log ++ [Event.itemSaved item.id] }

/-- Embedding of `item.save()` on a document built by `new itemModel(...)`:
the new record is appended to the store and the id counter advances. -/
def saveNewItem (st : St) (item : Item) : St :=
  { st with
      items := st.items ++ [item]
      nextId := st.nextId + 1
      log := st.log ++ [Event.itemSaved item.id] }

/-- Embedding of `saveFileToCloudinary(buffer)`: on success a fresh URL is
created in the blob store and returned; on failure the promise rejects with
the state unchanged. -/
def saveFileToCloudinary (upOk : Nat → Bool) (st : St) (buf : Nat) : Res String :=
  if upOk buf then
    let url := mkUrl st.fresh
    Res.ok url
      { st with
          blobs := url :: st.blobs
          fresh := st.fresh + 1
          log := st.log ++ [Event.uploaded url] }
  else Res.err "upload failed" st

/-- Embedding of `deleteFileFromCloudinary(url)`: the blob leaves the store. -/
def deleteFileFromCloudinary (st : St) (url : String) : St :=
  { st with
      blobs := st.blobs.erase url
      log := st.log ++ [Event.blobDeleted url] }

/-- Embedding of the upload loop of `create`
(`for (const image in images) { ... saveFileToCloudinary ... push(url) }`):
buffers are uploaded one at a time in submission order, accumulating the
returned URLs; the first failing upload aborts the loop, keeping the state
the partial uploads produced. -/
def uploadLoop (upOk : Nat → Bool) (st : St) (bufs : List Nat) : Res (List String) :=
  match bufs with
  | [] => Res.ok [] st
  | b :: rest =>
    match saveFileToCloudinary upOk st b with
    | Res.err m st1 => Res.err m st1
    | Res.ok url st1 =>
      match uploadLoop upOk st1 rest with
      | Res.err m st2 => Res.err m st2
      | Res.ok urls st2 => Res.ok (url :: urls) st2

/-- Embedding of `create(name, ar_name, description, price, discount, images,
sub_category_id, main_category_id)`: upload every buffer in order, pushing
each returned URL onto `item.images`, then `await item.save()`. The record is
only persisted after the whole loop has succeeded. -/
def create (upOk : Nat → Bool) (st : St) (name ar_name description : String)
    (price discount : Int) (images : List Nat)
    (sub_category_id main_category_id : String) : Res Item :=
  match uploadLoop upOk st images with
  | Res.err m st1 => Res.err m st1
  | Res.ok urls st1 =>
    let item : Item :=
      { id := st.nextId, name := name, ar_name := ar_name,
        description := description, price := price, discount := discount,
        sub_category_id := sub_category_id,
        main_category_id := main_category_id, images := urls }
    Res.ok item (saveNewItem st1 item)

/-- JavaScript truthiness of an optional string argument: `undefined` and
the empty string are falsy. -/
def truthyStr (v : Option String) : Bool :=
  match v with
  | none => false
  | some s => s != ""

/-- JavaScript truthiness of an optional numeric argument: `undefined` and
0 are falsy. -/
def truthyInt (v : Option Int) : Bool :=
  match v with
  | none => false
  | some n => n != 0

/-- MongoDB filter object built by `index`: each field is present exactly
when the corresponding `if (...)` in the source ran its assignment. -/
structure QueryFilter where
  main_category_id : Option String
  sub_category_id : Option String
  price_lte : Option Int
  price_gte : Option Int
  id_gt : Option Nat
deriving DecidableEq

/-- Embedding of the filter-building prefix of `index`. Each conditional
assignment `if (x) filter.y = ...` becomes one field guarded by the JS
truthiness of `x`; the two price guards merge into the single range
predicate on `price` exactly as the spreads `{ ...filter.price, $lte }` /
`{ ...filter.price, $gte }` do. The cursor string is cast to an id by the
persistence layer's cast function `parseId`. -/
def buildFilter (parseId : String → Nat) (main_category_id sub_category_id : Option String)
    (max_price min_price : Option Int) (cursor : Option String) : QueryFilter :=
  { main_category_id := if truthyStr main_category_id then main_category_id else none
    sub_category_id := if truthyStr sub_category_id then sub_category_id else none
    price_lte := if truthyInt max_price then max_price else none
    price_gte := if truthyInt min_price then min_price else none
    id_gt := if truthyStr cursor then some (parseId (cursor.getD "")) else none }

/-- Semantics of the MongoDB filter: every present predicate must hold
(`$lte`, `$gte` on `price`, `$gt` on `_id`, equality on the category ids). -/
def matchesFilter (f : QueryFilter) (it : Item) : Bool :=
  (match f.main_category_id with
   | none => true
   | some s => it.main_category_id == s) &&
  (match f.sub_category_id with
   | none => true
   | some s => it.sub_category_id == s) &&
  (match f.price_lte with
   | none => true
   | some p => decide (it.price ≤ p)) &&
  (match f.price_gte with
   | none => true
   | some p => decide (p ≤ it.price)) &&
  (match f.id_gt with
   | none => true
   | some c => decide (c < it.id))

/-- Semantics of `.limit(limit)`: an absent limit applies no cap, and
MongoDB treats `limit(0)` as no cap as well. -/
def applyLimit (limit : Option Nat) (l : List Item) : List Item :=
  match limit with
  | none => l
  | some 0 => l
  | some (n + 1) => l.take (n + 1)

/-- Embedding of `index(main_category_id, sub_category_id, max_price,
min_price, cursor, limit)`: `itemModel.find(filter).limit(limit)`, the find
returning matches in the store's natural (insertion / ascending id) order.
The `populate` calls only expand category references in the returned
objects and are not modelled. -/
def index (parseId : String → Nat) (st : St)
    (main_category_id sub_category_id : Option String)
    (max_price min_price : Option Int) (cursor : Option String)
    (limit : Option Nat) : List Item :=
  applyLimit limit
    (st.items.filter
      (matchesFilter
        (buildFilter parseId main_category_id sub_category_id max_price min_price cursor)))

/-- Blob-deletion loop of `remove`
(`for (const image of item.images) await deleteFileFromCloudinary(image)`). -/
def deleteBlobs (st : St) (urls : List String) : St :=
  urls.foldl deleteFileFromCloudinary st

/-- Embedding of `remove(id)`: `findByIdAndDelete` removes the record (or
yields null, leaving the state untouched); a null result throws
"Item not found"; then every referenced blob is deleted one at a time in
sequence order, and the deleted record's last state is returned. -/
def remove (st : St) (id : Nat) : Res Item :=
  match findById st id with
  | none => Res.err "Item not found" st
  | some item =>
    let st1 : St :=
      { st with
          items := st.items.eraseP (fun it => it.id == id)
          log := st.log ++ [Event.recordDeleted id] }
    Res.ok item (deleteBlobs st1 item.images)

/-- Embedding of `getById(id)`: it returns whatever `findById` produced —
the document, or null when the id does not resolve — and never throws. -/
def getById (st : St) (id : Nat) : Res (Option Item) :=
  Res.ok (findById st id) st

/-- Embedding of the JavaScript defaulting idiom `arg || old` at string
type: a truthy argument replaces, a falsy one (absent or empty) keeps. -/
def jsOrStr (arg : Option String) (old : String) : String :=
  match arg with
  | none => old
  | some s => if s = "" then old else s

/-- Embedding of `arg || old` at numeric type: absent or 0 keeps `old`. -/
def jsOrInt (arg : Option Int) (old : Int) : Int :=
  match arg with
  | none => old
  | some n => if n = 0 then old else n

/-- Embedding of `update(id, name, ar_name, description, price, discount,
sub_category_id, main_category_id)`: look the item up (throwing
"Item not found" on a miss), overwrite each scalar field with
`arg || item.field`, and save. `images` is never touched. -/
def update (st : St) (id : Nat) (name ar_name description : Option String)
    (price discount : Option Int)
    (sub_category_id main_category_id : Option String) : Res Item :=
  match findById st id with
  | none => Res.err "Item not found" st
  | some item =>
    let item1 : Item :=
      { item with
          name := jsOrStr name item.name
          description := jsOrStr description item.description
          price := jsOrInt price item.price
          sub_category_id := jsOrStr sub_category_id item.sub_category_id
          main_category_id := jsOrStr main_category_id item.main_category_id
          discount := jsOrInt discount item.discount
          ar_name := jsOrStr ar_name item.ar_name }
    Res.ok item1 (saveItem st item1)

/-- JavaScript array indexing `arr[index]` with an integer index: negative
and out-of-range indices yield `undefined` (`none`). -/
def jsIndex (l : List String) (i : Int) : Option String :=
  if i < 0 then none else l[i.toNat]?

/-- JavaScript `arr.splice(index, 1)` restricted to its effect on the
array: the element at the (clamped) start position is removed and the
later elements shift down one place. -/
def spliceRemove (l : List String) (i : Int) : List String :=
  let start : Nat := if i < 0 then (l.length + i).toNat else min i.toNat l.length
  l.take start ++ l.drop (start + 1)

/-- Embedding of `remove_item_photo(item_id, index)`: a missing item throws
"item not found "; a falsy `item.images[index]` (out of range — or an empty
string, which JavaScript cannot tell apart from undefined here) throws
"photo not found" before anything is mutated; otherwise the blob is
deleted, the entry is spliced out and the item saved. -/
def remove_item_photo (st : St) (item_id : Nat) (index : Int) : Res Item :=
  match findById st item_id with
  | none => Res.err "item not found " st
  | some item =>
    match jsIndex item.images index with
    | none => Res.err "photo not found" st
    | some url =>
      if url = "" then Res.err "photo not found" st
      else
        let st1 := deleteFileFromCloudinary st url
        let item1 : Item := { item with images := spliceRemove item.images index }
        Res.ok item1 (saveItem st1 item1)

/-- Embedding of `edit_item_photo(item_id, index, image)`: the initial
`findById` of the source is dead (its result is immediately overwritten),
so the operation is `remove_item_photo` followed by an upload whose URL is
pushed at the END of the sequence, then a save; errors of the removal
propagate. -/
def edit_item_photo (upOk : Nat → Bool) (st : St) (item_id : Nat) (index : Int)
    (image : Nat) : Res Item :=
  match remove_item_photo st item_id index with
  | Res.err m st1 => Res.err m st1
  | Res.ok item st1 =>
    match saveFileToCloudinary upOk st1 image with
    | Res.err m st2 => Res.err m st2
    | Res.ok url st2 =>
      let item1 : Item := { item with images := item.images ++ [url] }
      Res.ok item1 (saveItem st2 item1)

/-- Empty store, used for concrete evaluations. -/
def stEmpty : St :=
  { items := [], blobs := [], fresh := 0, nextId := 0, log := [] }

/-- A concrete persisted item with three photos. -/
def itemEx : Item :=
  { id := 1, name := "vape", ar_name := "ar", description := "d", price := 20,
    discount := 0, sub_category_id := "sc", main_category_id := "mc",
    images := ["u1", "u2", "u3"] }

/-- A concrete store holding `itemEx` and its three blobs. -/
def stEx : St :=
  { items := [itemEx], blobs := ["u1", "u2", "u3"], fresh := 3, nextId := 2,
    log := [] }

/-- A concrete persisted item with two photos. -/
def item2Ex : Item :=
  { id := 4, name := "coil", ar_name := "ar2", description := "d2", price := 7,
    discount := 1, sub_category_id := "sc2", main_category_id := "mc2",
    images := ["p", "q"] }

/-- A concrete store holding `item2Ex` and its two blobs. -/
def st2Ex : St :=
  { items := [item2Ex], blobs := ["p", "q"], fresh := 10, nextId := 5,
    log := [] }

/-- Three concrete items with ascending ids and spread prices. -/
def itemA : Item :=
  { id := 1, name := "cheap", ar_name := "a1", description := "", price := 5,
    discount := 0, sub_category_id := "s1", main_category_id := "m1",
    images := [] }

/-- Mid-priced concrete item. -/
def itemB : Item :=
  { id := 2, name := "mid", ar_name := "a2", description := "", price := 20,
    discount := 0, sub_category_id := "s1", main_category_id := "m1",
    images := [] }

/-- Expensive concrete item. -/
def itemC : Item :=
  { id := 3, name := "dear", ar_name := "a3", description := "", price := 60,
    discount := 0, sub_category_id := "s2", main_category_id := "m2",
    images := [] }

/-- A concrete store with three items in ascending id order. -/
def stIdx : St :=
  { items := [itemA, itemB, itemC], blobs := [], fresh := 0, nextId := 4,
    log := [] }

/-! ### Helper lemmas about the store primitives -/

lemma findById_id {st : St} {id : Nat} {item : Item}
    (h : findById st id = some item) : item.id = id := by
  have h' : st.items.find? (fun it => it.id == id) = some item := h
  simpa using List.find?_some h'

lemma find?_map_replace_self (l : List Item) (item item1 : Item)
    (h : l.find? (fun it => it.id == item1.id) = some item) :
    (l.map (fun it => if it.id == item1.id then item1 else it)).find?
      (fun it => it.id == item1.id) = some item1 := by
  induction l with
  | nil => simp at h
  | cons x xs ih =>
    by_cases hx : (x.id == item1.id) = true
    · simp only [List.map_cons, if_pos hx]
      exact List.find?_cons_of_pos _ (by simp)
    · rw [@List.find?_cons_of_neg Item (fun it => it.id == item1.id) x xs hx] at h
      simp only [List.map_cons, if_neg hx]
      rw [@List.find?_cons_of_neg Item (fun it => it.id == item1.id) x _ hx]
      exact ih h

lemma find?_map_replace_ne (l : List Item) (item1 : Item) (j : Nat)
    (hj : j ≠ item1.id) :
    (l.map (fun it => if it.id == item1.id then item1 else it)).find?
      (fun it => it.id == j) = l.find? (fun it => it.id == j) := by
  induction l with
  | nil => simp
  | cons x xs ih =>
    by_cases hx : (x.id == item1.id) = true
    · have hxid : x.id = item1.id := by simpa using hx
      have h1 : ¬ ((item1.id == j) = true) := by
        simp only [beq_iff_eq]
        exact fun e => hj e.symm
      have h2 : ¬ ((x.id == j) = true) := by
        simp only [beq_iff_eq, hxid]
        exact fun e => hj e.symm
      simp only [List.map_cons, if_pos hx]
      rw [@List.find?_cons_of_neg Item (fun it => it.id == j) item1 _ h1,
        @List.find?_cons_of_neg Item (fun it => it.id == j) x _ h2]
      exact ih
    · simp only [List.map_cons, if_neg hx]
      by_cases hxj : (x.id == j) = true
      · rw [@List.find?_cons_of_pos Item (fun it => it.id == j) x _ hxj,
          @List.find?_cons_of_pos Item (fun it => it.id == j) x _ hxj]
      · rw [@List.find?_cons_of_neg Item (fun it => it.id == j) x _ hxj,
          @List.find?_cons_of_neg Item (fun it => it.id == j) x _ hxj]
        exact ih

lemma find?_eraseP_ne (l : List Item) (id j : Nat) (hj : j ≠ id) :
    (l.eraseP (fun it => it.id == id)).find? (fun it => it.id == j)
      = l.find? (fun it => it.id == j) := by
  induction l with
  | nil => simp
  | cons x xs ih =>
    by_cases hx : (x.id == id) = true
    · rw [@List.eraseP_cons_of_pos Item x xs (fun it => it.id == id) hx]
      have hxj : ¬ ((x.id == j) = true) := by
        have hxid : x.id = id := by simpa using hx
        simp only [beq_iff_eq, hxid]
        exact fun e => hj e.symm
      rw [@List.find?_cons_of_neg Item (fun it => it.id == j) x _ hxj]
    · rw [@List.eraseP_cons_of_neg Item x xs (fun it => it.id == id) hx]
      by_cases hxj : (x.id == j) = true
      · rw [@List.find?_cons_of_pos Item (fun it => it.id == j) x _ hxj,
          @List.find?_cons_of_pos Item (fun it => it.id == j) x _ hxj]
      · rw [@List.find?_cons_of_neg Item (fun it => it.id == j) x _ hxj,
          @List.find?_cons_of_neg Item (fun it => it.id == j) x _ hxj]
        exact ih

lemma find?_append_some {p : Item → Bool} {l1 l2 : List Item} {a : Item}
    (h : l1.find? p = some a) : (l1 ++ l2).find? p = some a := by
  rw [List.find?_append, h]
  rfl

lemma findById_saveItem_self {st : St} {item item1 : Item}
    (hfind : findById st item1.id = some item) :
    findById (saveItem st item1) item1.id = some item1 :=
  find?_map_replace_self st.items item item1 hfind

lemma findById_saveItem_ne (st : St) (item1 : Item) (j : Nat)
    (hj : j ≠ item1.id) :
    findById (saveItem st item1) j = findById st j :=
  find?_map_replace_ne st.items item1 j hj

lemma deleteBlobs_spec (urls : List String) : ∀ st : St,
    (deleteBlobs st urls).items = st.items ∧
    (deleteBlobs st urls).log = st.log ++ urls.map Event.blobDeleted := by
  induction urls with
  | nil =>
    intro st
    exact ⟨rfl, by simp [deleteBlobs]⟩
  | cons u rest ih =>
    intro st
    obtain ⟨h1, h2⟩ := ih (deleteFileFromCloudinary st u)
    have hred : deleteBlobs st (u :: rest)
        = deleteBlobs (deleteFileFromCloudinary st u) rest := rfl
    refine ⟨?_, ?_⟩
    · rw [hred, h1]
      rfl
    · rw [hred, h2]
      simp [deleteFileFromCloudinary]


/-! ### C1 -/

/-- C1, counterexample: on the store with no items, `getById 1` returns a
null payload with the state unchanged and `isErr = false` — it does not
signal a NOT_FOUND (or any) error for an id that does not resolve. -/
theorem getById_c1_counterexample :
    getById stEmpty 1 = Res.ok none stEmpty ∧ (getById stEmpty 1).isErr = false :=
  ⟨rfl, rfl⟩

/-- C1, amended: for every id that does not resolve to an existing item,
`getById` returns an absent (null) result without signaling any error and
without touching the state; NOT_FOUND signaling is left to its callers. -/
theorem getById_c1_amended (st : St) (id : Nat) (h : findById st id = none) :
    getById st id = Res.ok none st := by
  simp [getById, h]

/-- C1, witness for the amended theorem at a concrete input. -/
theorem getById_c1_amended_witness :
    findById stEmpty 1 = none ∧ getById stEmpty 1 = Res.ok none stEmpty :=
  ⟨rfl, getById_c1_amended stEmpty 1 rfl⟩

/-! ### C10 -/

/-- C10: for every existing item and every index at which no image exists
(negative or at-or-beyond the length, i.e. `jsIndex` yields none),
`remove_item_photo` fails with the "photo not found" error and returns the
state completely unchanged — no blob deletion and no mutation happened. -/
theorem remove_item_photo_c10_oob (st : St) (item_id : Nat) (item : Item)
    (index : Int) (hfind : findById st item_id = some item)
    (hidx : jsIndex item.images index = none) :
    remove_item_photo st item_id index = Res.err "photo not found" st := by
  simp [remove_item_photo, hfind, hidx]

/-- C10, witness: on the concrete store, both a negative index and an index
beyond the end fail with "photo not found" and leave the state unchanged. -/
theorem remove_item_photo_c10_oob_witness :
    (findById stEx 1 = some itemEx ∧ jsIndex itemEx.images (-1) = none ∧
      remove_item_photo stEx 1 (-1) = Res.err "photo not found" stEx) ∧
    (jsIndex itemEx.images 5 = none ∧
      remove_item_photo stEx 1 5 = Res.err "photo not found" stEx) :=
  ⟨⟨rfl, by decide, remove_item_photo_c10_oob stEx 1 itemEx (-1) rfl (by decide)⟩,
   ⟨by decide, remove_item_photo_c10_oob stEx 1 itemEx 5 rfl (by decide)⟩⟩

lemma findById_update_ok {st : St} {id : Nat} {item : Item}
    (hfind : findById st id = some item) (item1 : Item) (h1 : item1.id = id) :
    findById (saveItem st item1) id = some item1 := by
  subst h1
  exact findById_saveItem_self hfind

/-! ### C4 -/

/-- C4: on an item whose images are `[a, b, c]`, `remove_item_photo` at
index 1 yields images `[a, c]` (the entry at the 0-based index goes away
and the later entries shift down); a second `remove_item_photo` at index 1
then removes `c` — the element that shifted into position 1 — leaving
`[a]`, with the log showing blob `b` deleted by the first call and blob `c`
by the second; and at any index holding no image the call signals the
"photo not found" error. -/
theorem remove_item_photo_c4 (st : St) (id : Nat) (item : Item) (a b c : String)
    (hfind : findById st id = some item) (himg : item.images = [a, b, c])
    (hb : b ≠ "") (hc : c ≠ "") :
    (∃ it1 st1, remove_item_photo st id 1 = Res.ok it1 st1 ∧
      it1.images = [a, c] ∧
      ∃ it2 st2, remove_item_photo st1 id 1 = Res.ok it2 st2 ∧
        it2.images = [a] ∧
        st2.log = st.log ++ [Event.blobDeleted b, Event.itemSaved item.id,
          Event.blobDeleted c, Event.itemSaved item.id]) ∧
    (∀ j : Int, jsIndex item.images j = none →
      remove_item_photo st id j = Res.err "photo not found" st) := by
  have hid : item.id = id := findById_id hfind
  constructor
  · have hsplice : spliceRemove item.images 1 = [a, c] := by
      rw [himg]
      simp [spliceRemove]
    have hjs : jsIndex item.images 1 = some b := by
      rw [himg]
      simp [jsIndex]
    have h1 : remove_item_photo st id 1
        = Res.ok { item with images := [a, c] }
            (saveItem (deleteFileFromCloudinary st b)
              { item with images := [a, c] }) := by
      simp [remove_item_photo, hfind, hjs, hsplice, hb]
    refine ⟨_, _, h1, rfl, ?_⟩
    have hfindA : findById (saveItem (deleteFileFromCloudinary st b)
        { item with images := [a, c] }) id = some { item with images := [a, c] } := by
      have hfindD : findById (deleteFileFromCloudinary st b) id = some item := hfind
      exact findById_update_ok hfindD { item with images := [a, c] } hid
    have hsplice2 : spliceRemove [a, c] 1 = [a] := by simp [spliceRemove]
    have hjs2 : jsIndex ([a, c] : List String) 1 = some c := by simp [jsIndex]
    have h2 : remove_item_photo (saveItem (deleteFileFromCloudinary st b)
          { item with images := [a, c] }) id 1
        = Res.ok { item with images := [a] }
            (saveItem
              (deleteFileFromCloudinary
                (saveItem (deleteFileFromCloudinary st b) { item with images := [a, c] }) c)
              { item with images := [a] }) := by
      simp [remove_item_photo, hfindA, hjs2, hsplice2, hc]
    refine ⟨_, _, h2, rfl, ?_⟩
    simp [saveItem, deleteFileFromCloudinary]
  · intro j hj
    simp [remove_item_photo, hfind, hj]

/-- C4, witness: the concrete three-photo item goes `[u1,u2,u3]` to
`[u1,u3]` to `[u1]` under two index-1 removals, and index 7 holds no
photo so it errors. -/
theorem remove_item_photo_c4_witness :
    (findById stEx 1 = some itemEx ∧ itemEx.images = ["u1", "u2", "u3"] ∧
      ∃ it1 st1, remove_item_photo stEx 1 1 = Res.ok it1 st1 ∧
        it1.images = ["u1", "u3"] ∧
        ∃ it2 st2, remove_item_photo st1 1 1 = Res.ok it2 st2 ∧
          it2.images = ["u1"] ∧
          st2.log = stEx.log ++ [Event.blobDeleted "u2", Event.itemSaved itemEx.id,
            Event.blobDeleted "u3", Event.itemSaved itemEx.id]) ∧
    remove_item_photo stEx 1 7 = Res.err "photo not found" stEx := by
  have h := remove_item_photo_c4 stEx 1 itemEx "u1" "u2" "u3" rfl rfl
    (by decide) (by decide)
  exact ⟨⟨rfl, rfl, h.1⟩, h.2 7 (by decide)⟩

/-! ### C3 -/

/-- C3: on an item whose images are `[a, b]`, `edit_item_photo` at index 0
with a succeeding upload yields images `[b, newUrl]`: the photo at the
given index is removed and the freshly uploaded URL is appended at the end
of the sequence, not reinserted at index 0. -/
theorem edit_item_photo_c3 (upOk : Nat → Bool) (st : St) (id : Nat) (item : Item)
    (a b : String) (img : Nat) (hfind : findById st id = some item)
    (himg : item.images = [a, b]) (ha : a ≠ "") (hup : upOk img = true) :
    ∃ it st1, edit_item_photo upOk st id 0 img = Res.ok it st1 ∧
      it.images = [b, mkUrl st.fresh] := by
  have hid : item.id = id := findById_id hfind
  have hsplice : spliceRemove item.images 0 = [b] := by
    rw [himg]
    simp [spliceRemove]
  have hjs : jsIndex item.images 0 = some a := by
    rw [himg]
    simp [jsIndex]
  have h1 : remove_item_photo st id 0
      = Res.ok { item with images := [b] }
          (saveItem (deleteFileFromCloudinary st a) { item with images := [b] }) := by
    simp [remove_item_photo, hfind, hjs, hsplice, ha]
  simp only [edit_item_photo, h1, saveFileToCloudinary, hup, if_true,
    saveItem, deleteFileFromCloudinary]
  exact ⟨_, _, rfl, by simp⟩

/-- C3, witness: editing photo 0 of the concrete two-photo item `[p, q]`
yields `[q, newUrl]`. -/
theorem edit_item_photo_c3_witness :
    findById st2Ex 4 = some item2Ex ∧ item2Ex.images = ["p", "q"] ∧
    ∃ it st1, edit_item_photo (fun _ => true) st2Ex 4 0 9 = Res.ok it st1 ∧
      it.images = ["q", mkUrl st2Ex.fresh] :=
  ⟨rfl, rfl,
    edit_item_photo_c3 (fun _ => true) st2Ex 4 item2Ex "p" "q" 9 rfl rfl
      (by decide) rfl⟩

/-! ### C2 -/

/-- C2: on an existing item, `update` succeeds, persists the result, and
field by field: an omitted argument keeps the stored value, an explicit
falsy argument (empty string, price or discount 0) also keeps the stored
value, and only a truthy argument replaces it. -/
theorem update_c2 (st : St) (id : Nat) (item : Item)
    (nm ar ds : Option String) (pr dc : Option Int) (sb mn : Option String)
    (hfind : findById st id = some item) :
    ∃ it1 st1, update st id nm ar ds pr dc sb mn = Res.ok it1 st1 ∧
      findById st1 id = some it1 ∧
      ((nm = none ∨ nm = some "") → it1.name = item.name) ∧
      (∀ s, nm = some s → s ≠ "" → it1.name = s) ∧
      ((ar = none ∨ ar = some "") → it1.ar_name = item.ar_name) ∧
      (∀ s, ar = some s → s ≠ "" → it1.ar_name = s) ∧
      ((ds = none ∨ ds = some "") → it1.description = item.description) ∧
      (∀ s, ds = some s → s ≠ "" → it1.description = s) ∧
      ((pr = none ∨ pr = some 0) → it1.price = item.price) ∧
      (∀ p, pr = some p → p ≠ 0 → it1.price = p) ∧
      ((dc = none ∨ dc = some 0) → it1.discount = item.discount) ∧
      (∀ p, dc = some p → p ≠ 0 → it1.discount = p) ∧
      ((sb = none ∨ sb = some "") → it1.sub_category_id = item.sub_category_id) ∧
      (∀ s, sb = some s → s ≠ "" → it1.sub_category_id = s) ∧
      ((mn = none ∨ mn = some "") → it1.main_category_id = item.main_category_id) ∧
      (∀ s, mn = some s → s ≠ "" → it1.main_category_id = s) := by
  have hid : item.id = id := findById_id hfind
  have hup : update st id nm ar ds pr dc sb mn
      = Res.ok
          { item with
              name := jsOrStr nm item.name
              description := jsOrStr ds item.description
              price := jsOrInt pr item.price
              sub_category_id := jsOrStr sb item.sub_category_id
              main_category_id := jsOrStr mn item.main_category_id
              discount := jsOrInt dc item.discount
              ar_name := jsOrStr ar item.ar_name }
          (saveItem st
            { item with
                name := jsOrStr nm item.name
                description := jsOrStr ds item.description
                price := jsOrInt pr item.price
                sub_category_id := jsOrStr sb item.sub_category_id
                main_category_id := jsOrStr mn item.main_category_id
                discount := jsOrInt dc item.discount
                ar_name := jsOrStr ar item.ar_name }) := by
    simp [update, hfind]
  refine ⟨_, _, hup, findById_update_ok hfind _ hid, ?_, ?_, ?_, ?_, ?_, ?_,
    ?_, ?_, ?_, ?_, ?_, ?_, ?_, ?_⟩
  · rintro (rfl | rfl) <;> simp [jsOrStr]
  · rintro s rfl hs
    simp [jsOrStr, hs]
  · rintro (rfl | rfl) <;> simp [jsOrStr]
  · rintro s rfl hs
    simp [jsOrStr, hs]
  · rintro (rfl | rfl) <;> simp [jsOrStr]
  · rintro s rfl hs
    simp [jsOrStr, hs]
  · rintro (rfl | rfl) <;> simp [jsOrInt]
  · rintro p rfl hp
    simp [jsOrInt, hp]
  · rintro (rfl | rfl) <;> simp [jsOrInt]
  · rintro p rfl hp
    simp [jsOrInt, hp]
  · rintro (rfl | rfl) <;> simp [jsOrStr]
  · rintro s rfl hs
    simp [jsOrStr, hs]
  · rintro (rfl | rfl) <;> simp [jsOrStr]
  · rintro s rfl hs
    simp [jsOrStr, hs]

/-- C2, witness: updating the concrete item with an empty name, price 0,
an omitted ar_name and a truthy description and discount keeps name and
price, and replaces description and discount. -/
theorem update_c2_witness :
    findById stEx 1 = some itemEx ∧
    ∃ it1 st1,
      update stEx 1 (some "") none (some "dd") (some 0) (some 3) none (some "MC")
        = Res.ok it1 st1 ∧
      it1.name = itemEx.name ∧ it1.price = itemEx.price ∧
      it1.ar_name = itemEx.ar_name ∧ it1.description = "dd" ∧
      it1.discount = 3 ∧ it1.main_category_id = "MC" := by
  refine ⟨rfl, ?_⟩
  obtain ⟨it1, st1, h1, _, hn1, _, ha1, _, _, hd2, hp1, _, _, hdc2, _, _, _, hm2⟩ :=
    update_c2 stEx 1 itemEx (some "") none (some "dd") (some 0) (some 3) none
      (some "MC") rfl
  exact ⟨it1, st1, h1, hn1 (Or.inr rfl), hp1 (Or.inr rfl), ha1 (Or.inl rfl),
    hd2 "dd" rfl (by decide), hdc2 3 rfl (by decide), hm2 "MC" rfl (by decide)⟩

/-! ### C7 -/

/-- C7: `remove` signals "Item not found" (leaving the state untouched)
when the id does not resolve; otherwise it returns the deleted item's last
known state, the record is gone from the store, and the log shows the
record deletion happening first, followed by one blob deletion per entry of
the item's images sequence, in sequence order. -/
theorem remove_c7 (st : St) (id : Nat) :
    (findById st id = none → remove st id = Res.err "Item not found" st) ∧
    (∀ item, findById st id = some item →
      ∃ st1, remove st id = Res.ok item st1 ∧
        st1.items = st.items.eraseP (fun it => it.id == id) ∧
        st1.log = st.log
          ++ Event.recordDeleted id :: item.images.map Event.blobDeleted) := by
  constructor
  · intro h
    simp [remove, h]
  · intro item h
    obtain ⟨hitems, hlog⟩ := deleteBlobs_spec item.images
      { st with
          items := st.items.eraseP (fun it => it.id == id)
          log := st.log ++ [Event.recordDeleted id] }
    refine ⟨deleteBlobs
        { st with
            items := st.items.eraseP (fun it => it.id == id)
            log := st.log ++ [Event.recordDeleted id] } item.images,
      by simp [remove, h], ?_, ?_⟩
    · rw [hitems]
    · rw [hlog]
      simp

/-- C7, witness: removing the concrete item returns it, erases its record
and logs the record deletion before the three blob deletions in order;
removing a missing id fails with "Item not found". -/
theorem remove_c7_witness :
    (findById stEx 2 = none ∧ remove stEx 2 = Res.err "Item not found" stEx) ∧
    (findById stEx 1 = some itemEx ∧
      ∃ st1, remove stEx 1 = Res.ok itemEx st1 ∧
        st1.items = stEx.items.eraseP (fun it => it.id == 1) ∧
        st1.log = stEx.log
          ++ Event.recordDeleted 1 :: itemEx.images.map Event.blobDeleted) :=
  ⟨⟨rfl, (remove_c7 stEx 2).1 rfl⟩, ⟨rfl, (remove_c7 stEx 1).2 itemEx rfl⟩⟩

/-! ### C5 -/

lemma range_map_mkUrl (n k : Nat) :
    (List.range (n + 1)).map (fun i => mkUrl (k + i))
      = mkUrl k :: (List.range n).map (fun i => mkUrl (k + 1 + i)) := by
  rw [List.range_succ_eq_map]
  simp only [List.map_cons, List.map_map, Nat.add_zero, List.cons.injEq, true_and]
  exact List.map_congr_left (fun i _ => congrArg mkUrl (by omega))

lemma uploadLoop_state_items (upOk : Nat → Bool) (bufs : List Nat) : ∀ st : St,
    (uploadLoop upOk st bufs).state.items = st.items ∧
    (uploadLoop upOk st bufs).state.nextId = st.nextId := by
  induction bufs with
  | nil =>
    intro st
    exact ⟨rfl, rfl⟩
  | cons b rest ih =>
    intro st
    by_cases hb : upOk b = true
    · have hred : uploadLoop upOk st (b :: rest)
          = match uploadLoop upOk
              { st with
                  blobs := mkUrl st.fresh :: st.blobs
                  fresh := st.fresh + 1
                  log := st.log ++ [Event.uploaded (mkUrl st.fresh)] } rest with
            | Res.err m st2 => Res.err m st2
            | Res.ok urls st2 => Res.ok (mkUrl st.fresh :: urls) st2 := by
        simp [uploadLoop, saveFileToCloudinary, hb]
      obtain ⟨h1, h2⟩ := ih
        { st with
            blobs := mkUrl st.fresh :: st.blobs
            fresh := st.fresh + 1
            log := st.log ++ [Event.uploaded (mkUrl st.fresh)] }
      rw [hred]
      cases huL : uploadLoop upOk
          { st with
              blobs := mkUrl st.fresh :: st.blobs
              fresh := st.fresh + 1
              log := st.log ++ [Event.uploaded (mkUrl st.fresh)] } rest with
      | ok urls st2 =>
        rw [huL] at h1 h2
        exact ⟨h1, h2⟩
      | err m st2 =>
        rw [huL] at h1 h2
        exact ⟨h1, h2⟩
    · have hred : uploadLoop upOk st (b :: rest) = Res.err "upload failed" st := by
        simp [uploadLoop, saveFileToCloudinary, hb]
      rw [hred]
      exact ⟨rfl, rfl⟩

lemma uploadLoop_ok_all (upOk : Nat → Bool) (bufs : List Nat) : ∀ st : St,
    (∀ b ∈ bufs, upOk b = true) →
    ∃ st1, uploadLoop upOk st bufs
        = Res.ok ((List.range bufs.length).map (fun i => mkUrl (st.fresh + i))) st1 ∧
      st1.items = st.items ∧ st1.nextId = st.nextId ∧
      st1.log = st.log
        ++ ((List.range bufs.length).map (fun i => mkUrl (st.fresh + i))).map
            Event.uploaded := by
  induction bufs with
  | nil =>
    intro st h
    exact ⟨st, by simp [uploadLoop], rfl, rfl, by simp⟩
  | cons b rest ih =>
    intro st h
    have hb : upOk b = true := h b (by simp)
    obtain ⟨st2, hload, hitems, hnext, hlog⟩ := ih
      { st with
          blobs := mkUrl st.fresh :: st.blobs
          fresh := st.fresh + 1
          log := st.log ++ [Event.uploaded (mkUrl st.fresh)] }
      (fun x hx => h x (by simp [hx]))
    refine ⟨st2, ?_, hitems, hnext, ?_⟩
    · have hred : uploadLoop upOk st (b :: rest)
          = match uploadLoop upOk
              { st with
                  blobs := mkUrl st.fresh :: st.blobs
                  fresh := st.fresh + 1
                  log := st.log ++ [Event.uploaded (mkUrl st.fresh)] } rest with
            | Res.err m st2 => Res.err m st2
            | Res.ok urls st2 => Res.ok (mkUrl st.fresh :: urls) st2 := by
        simp [uploadLoop, saveFileToCloudinary, hb]
      rw [hred, hload, List.length_cons, range_map_mkUrl]
    · rw [hlog, List.length_cons, range_map_mkUrl]
      simp

lemma uploadLoop_err_items (upOk : Nat → Bool) (bufs : List Nat) (st : St)
    (m : String) (st1 : St) (h : uploadLoop upOk st bufs = Res.err m st1) :
    st1.items = st.items := by
  have h2 := (uploadLoop_state_items upOk bufs st).1
  rw [h] at h2
  exact h2

/-- C5: with N files that all upload successfully, `create` persists an
item whose `images` sequence has exactly N entries, namely the URLs the
blob store returned for the files in upload-submission order, the record
is appended to the store, and the log shows the item save happening only
after all N uploads; and whenever any upload fails, `create` fails with no
record persisted (the item store is exactly what it was). -/
theorem create_c5 (upOk : Nat → Bool) (st : St) (name arn ds : String)
    (pr dc : Int) (bufs : List Nat) (sb mn : String) :
    ((∀ b ∈ bufs, upOk b = true) →
      ∃ item st1, create upOk st name arn ds pr dc bufs sb mn = Res.ok item st1 ∧
        item.images.length = bufs.length ∧
        item.images = (List.range bufs.length).map (fun i => mkUrl (st.fresh + i)) ∧
        st1.items = st.items ++ [item] ∧
        st1.log = st.log ++ item.images.map Event.uploaded
          ++ [Event.itemSaved item.id]) ∧
    (∀ m st1, create upOk st name arn ds pr dc bufs sb mn = Res.err m st1 →
      st1.items = st.items) := by
  constructor
  · intro h
    obtain ⟨st2, hload, hitems, hnext, hlog⟩ := uploadLoop_ok_all upOk bufs st h
    refine ⟨{ id := st.nextId, name := name, ar_name := arn, description := ds,
              price := pr, discount := dc, sub_category_id := sb,
              main_category_id := mn,
              images := (List.range bufs.length).map
                (fun i => mkUrl (st.fresh + i)) },
      saveNewItem st2
        { id := st.nextId, name := name, ar_name := arn, description := ds,
          price := pr, discount := dc, sub_category_id := sb,
          main_category_id := mn,
          images := (List.range bufs.length).map (fun i => mkUrl (st.fresh + i)) },
      ?_, ?_, rfl, ?_, ?_⟩
    · simp only [create, hload]
    · simp
    · simp [saveNewItem, hitems]
    · simp [saveNewItem, hlog]
  · intro m st1 h
    cases huL : uploadLoop upOk st bufs with
    | ok urls st2 =>
      rw [create, huL] at h
      simp at h
    | err m2 st2 =>
      rw [create, huL] at h
      obtain ⟨hm, hst⟩ := Res.err.inj h
      rw [← hst]
      exact uploadLoop_err_items upOk bufs st m2 st2 huL

/-- C5, witness: creating with two always-succeeding uploads yields an item
with exactly the two fresh URLs in order, persisted after both uploads; and
creating when the second upload fails persists nothing. -/
theorem create_c5_witness :
    (∃ item st1,
      create (fun _ => true) stEmpty "n" "a" "d" 7 0 [4, 5] "s" "m"
        = Res.ok item st1 ∧
      item.images.length = 2 ∧
      item.images = (List.range 2).map (fun i => mkUrl (stEmpty.fresh + i)) ∧
      st1.items = stEmpty.items ++ [item] ∧
      st1.log = stEmpty.log ++ item.images.map Event.uploaded
        ++ [Event.itemSaved item.id]) ∧
    (create (fun b => b != 5) stEmpty "n" "a" "d" 7 0 [4, 5] "s" "m"
        = Res.err "upload failed"
          { stEmpty with
              blobs := [mkUrl 0], fresh := 1,
              log := [Event.uploaded (mkUrl 0)] } ∧
      ({ stEmpty with
          blobs := [mkUrl 0], fresh := 1,
          log := [Event.uploaded (mkUrl 0)] } : St).items = stEmpty.items) := by
  constructor
  · exact (create_c5 (fun _ => true) stEmpty "n" "a" "d" 7 0 [4, 5] "s" "m").1
      (fun b _ => rfl)
  · exact ⟨rfl,
      (create_c5 (fun b => b != 5) stEmpty "n" "a" "d" 7 0 [4, 5] "s" "m").2
        "upload failed" _ rfl⟩

/-! ### C6 -/

/-- C6: every provided filter predicate of `index` is ANDed into the query:
with truthy `min_price` and `max_price` every returned item's price lies in
the closed range, a provided truthy category id must match exactly, with a
truthy cursor every returned item's id strictly exceeds the cursor's id,
the results keep the store's ascending id order, and at most `limit` items
are returned. -/
theorem index_c6 (parseId : String → Nat) (st : St) (main sub : Option String)
    (mx mn : Int) (c : String) (n : Nat)
    (hsort : st.items.Pairwise (fun x y => x.id < y.id))
    (hmx : mx ≠ 0) (hmn : mn ≠ 0) (hc : c ≠ "") (hn : 0 < n) :
    (∀ it ∈ index parseId st main sub (some mx) (some mn) (some c) (some n),
        mn ≤ it.price ∧ it.price ≤ mx ∧ parseId c < it.id) ∧
    (∀ s, main = some s → s ≠ "" →
      ∀ it ∈ index parseId st main sub (some mx) (some mn) (some c) (some n),
        it.main_category_id = s) ∧
    (∀ s, sub = some s → s ≠ "" →
      ∀ it ∈ index parseId st main sub (some mx) (some mn) (some c) (some n),
        it.sub_category_id = s) ∧
    List.Pairwise (fun x y => x.id < y.id)
      (index parseId st main sub (some mx) (some mn) (some c) (some n)) ∧
    (index parseId st main sub (some mx) (some mn) (some c) (some n)).length
      ≤ n := by
  obtain ⟨m, rfl⟩ : ∃ m, n = m + 1 := ⟨n - 1, by omega⟩
  have h1 : truthyInt (some mx) = true := by simp [truthyInt, hmx]
  have h2 : truthyInt (some mn) = true := by simp [truthyInt, hmn]
  have h3 : truthyStr (some c) = true := by simp [truthyStr, hc]
  have hidx : index parseId st main sub (some mx) (some mn) (some c) (some (m + 1))
      = (st.items.filter
          (matchesFilter
            (buildFilter parseId main sub (some mx) (some mn) (some c)))).take
          (m + 1) := rfl
  have hmem : ∀ it ∈ index parseId st main sub (some mx) (some mn) (some c)
      (some (m + 1)),
      matchesFilter (buildFilter parseId main sub (some mx) (some mn) (some c)) it
        = true := by
    intro it hit
    rw [hidx] at hit
    exact (List.mem_filter.mp (List.take_subset _ _ hit)).2
  refine ⟨?_, ?_, ?_, ?_, ?_⟩
  · intro it hit
    have hm := hmem it hit
    simp [matchesFilter, buildFilter, h1, h2, h3] at hm
    exact ⟨hm.1.2, hm.1.1.2, hm.2⟩
  · rintro s rfl hs it hit
    have h4 : truthyStr (some s) = true := by simp [truthyStr, hs]
    have hm := hmem it hit
    simp [matchesFilter, buildFilter, h1, h2, h3, h4] at hm
    exact hm.1.1.1.1
  · rintro s rfl hs it hit
    have h4 : truthyStr (some s) = true := by simp [truthyStr, hs]
    have hm := hmem it hit
    simp [matchesFilter, buildFilter, h1, h2, h3, h4] at hm
    exact hm.1.1.1.2
  · rw [hidx]
    exact List.Pairwise.sublist (List.take_sublist _ _)
      (List.Pairwise.filter _ hsort)
  · rw [hidx]
    simp [List.length_take]

/-- C6, witness: on the concrete three-item store (prices 5, 20, 60; ids
1, 2, 3) with range 10..50, cursor "x" (cast to id 1) and limit 2, the
theorem's guarantees hold. -/
theorem index_c6_witness :
    stIdx.items.Pairwise (fun x y => x.id < y.id) ∧
    ((∀ it ∈ index String.length stIdx none none (some 50) (some 10) (some "x")
        (some 2), 10 ≤ it.price ∧ it.price ≤ 50 ∧ String.length "x" < it.id) ∧
      (∀ s, (none : Option String) = some s → s ≠ "" →
        ∀ it ∈ index String.length stIdx none none (some 50) (some 10) (some "x")
          (some 2), it.main_category_id = s) ∧
      (∀ s, (none : Option String) = some s → s ≠ "" →
        ∀ it ∈ index String.length stIdx none none (some 50) (some 10) (some "x")
          (some 2), it.sub_category_id = s) ∧
      List.Pairwise (fun x y => x.id < y.id)
        (index String.length stIdx none none (some 50) (some 10) (some "x")
          (some 2)) ∧
      (index String.length stIdx none none (some 50) (some 10) (some "x")
          (some 2)).length ≤ 2) :=
  ⟨by decide,
    index_c6 String.length stIdx none none 50 10 "x" 2 (by decide) (by decide)
      (by decide) (by decide) (by decide)⟩

/-! ### C9 -/

/-- C9: a filter argument of `index` that is provided but falsy — category
id or cursor given as the empty string, `min_price` or `max_price` given as
0 — is treated exactly as if it were absent: the query it produces, and
therefore the result, is the same as with the argument omitted, so e.g.
`min_price = 0` does not constrain the price at all. -/
theorem index_c9 (parseId : String → Nat) (st : St) :
    (∀ sub mx mn cur lim, index parseId st (some "") sub mx mn cur lim
        = index parseId st none sub mx mn cur lim) ∧
    (∀ main mx mn cur lim, index parseId st main (some "") mx mn cur lim
        = index parseId st main none mx mn cur lim) ∧
    (∀ main sub mn cur lim, index parseId st main sub (some 0) mn cur lim
        = index parseId st main sub none mn cur lim) ∧
    (∀ main sub mx cur lim, index parseId st main sub mx (some 0) cur lim
        = index parseId st main sub mx none cur lim) ∧
    (∀ main sub mx mn lim, index parseId st main sub mx mn (some "") lim
        = index parseId st main sub mx mn none lim) :=
  ⟨fun _ _ _ _ _ => rfl, fun _ _ _ _ _ => rfl, fun _ _ _ _ _ => rfl,
    fun _ _ _ _ _ => rfl, fun _ _ _ _ _ => rfl⟩

/-! ### C8 -/

lemma findById_saveItem_images (st : St) (item : Item) (item1 : Item) (id : Nat)
    (hfind : findById st id = some item) (hid : item1.id = id)
    (him : item1.images = item.images) (j : Nat) :
    (findById (saveItem st item1) j).map Item.images
      = (findById st j).map Item.images := by
  by_cases hj : j = id
  · subst hj
    rw [findById_update_ok hfind item1 hid, hfind]
    simp [him]
  · rw [findById_saveItem_ne st item1 j (fun h => hj (h.trans hid))]

/-- C8: the images sequence (content and order) of every stored item is
untouched by every operation other than the photo operations — `update`
with any combination of scalar arguments preserves every item's images,
`getById` reads without modifying anything, `create` leaves every
previously stored item untouched, and `remove` leaves every item other
than the removed one untouched. -/
theorem frame_c8 :
    (∀ st id nm ar ds pr dc sb mn j,
      (findById (Res.state (update st id nm ar ds pr dc sb mn)) j).map Item.images
        = (findById st j).map Item.images) ∧
    (∀ st id, getById st id = Res.ok (findById st id) st) ∧
    (∀ upOk st name arn ds pr dc bufs sb mn j it, findById st j = some it →
      findById (Res.state (create upOk st name arn ds pr dc bufs sb mn)) j
        = some it) ∧
    (∀ st id j, j ≠ id → findById (Res.state (remove st id)) j = findById st j) := by
  refine ⟨?_, fun st id => rfl, ?_, ?_⟩
  · intro st id nm ar ds pr dc sb mn j
    cases hfind : findById st id with
    | none => simp [update, hfind, Res.state]
    | some item =>
      simp only [update, hfind, Res.state]
      refine findById_saveItem_images st item _ id hfind ?_ ?_ j
      · have hid : item.id = id := findById_id hfind
        exact hid
      · rfl
  · intro upOk st name arn ds pr dc bufs sb mn j it h
    have hstL := (uploadLoop_state_items upOk bufs st).1
    cases huL : uploadLoop upOk st bufs with
    | err m st2 =>
      rw [huL] at hstL
      simp only [create, huL, Res.state]
      simp only [Res.state] at hstL
      show st2.items.find? (fun x => x.id == j) = some it
      rw [hstL]
      exact h
    | ok urls st2 =>
      rw [huL] at hstL
      simp only [create, huL, Res.state]
      simp only [Res.state] at hstL
      show (st2.items ++ [_]).find? (fun x => x.id == j) = some it
      refine find?_append_some ?_
      rw [hstL]
      exact h
  · intro st id j hj
    cases hfind : findById st id with
    | none => simp [remove, hfind, Res.state]
    | some item =>
      simp only [remove, hfind, Res.state]
      obtain ⟨hitems, _⟩ := deleteBlobs_spec item.images
        { st with
            items := st.items.eraseP (fun it => it.id == id)
            log := st.log ++ [Event.recordDeleted id] }
      show (deleteBlobs
          { st with
              items := st.items.eraseP (fun it => it.id == id)
              log := st.log ++ [Event.recordDeleted id] }
          item.images).items.find? (fun x => x.id == j)
        = st.items.find? (fun x => x.id == j)
      rw [hitems]
      exact find?_eraseP_ne st.items id j hj

/-- C8, witness: on the concrete store, `create` with no files leaves the
stored item intact, and `remove` of item 1 leaves the lookup of id 2
unchanged. -/
theorem frame_c8_witness :
    (findById stEx 1 = some itemEx ∧
      findById (Res.state (create (fun _ => true) stEx "n" "a" "d" 7 0 [] "s" "m")) 1
        = some itemEx) ∧
    ((2 : Nat) ≠ 1 ∧ findById (Res.state (remove stEx 1)) 2 = findById stEx 2) :=
  ⟨⟨rfl, frame_c8.2.2.1 (fun _ => true) stEx "n" "a" "d" 7 0 [] "s" "m" 1 itemEx
      rfl⟩,
    ⟨by decide, frame_c8.2.2.2 stEx 1 2 (by decide)⟩⟩
